import Mathlib

/-!
Shallow embedding of the godns DNS codec and resolver core
(src/dns/bytePacketBuffer.go, src/dns/dnsPacket.go, src/dns/dnsQuestion.go,
src/dns/dnsRecord.go, src/dns/queryType.go, src/main.go).

Go strings are modelled as lists of bytes (`GoStr := List Nat`, each entry
the byte value).  Machine integers are modelled as `Nat` with explicit
`% 2^w` masking where the Go code converts or overflows; signed `int`
arithmetic that can go negative is modelled with `Int`.  Methods that
mutate the receiver are modelled as state-passing functions
`BytePacketBuffer → GoResult α × BytePacketBuffer`: the returned buffer
reflects all mutations performed before an early error return, exactly as
the Go receiver would.  A Go `error` return is `GoResult.err`; a Go runtime
panic (an unchecked out-of-range index) is `GoResult.panicked`.
-/

namespace Godns

/-- Bytes of a Go string. -/
abbrev GoStr := List Nat

/-- The error values the codec produces (`errors.New` / `fmt.Errorf`),
plus `fuelOut`, the marker used internally by the fuelled `readQname`
loop; the termination theorem shows `fuelOut` is never the result. -/
inductive GoErr where
  | endOfBuffer
  | jumpLimit (m : Nat)
  | labelTooLong
  | unknownRecordType
  | fuelOut
  deriving DecidableEq

/-- Outcome of a Go call: a value, a returned `error`, or a runtime panic
(out-of-range array index, which in Go crashes rather than returns). -/
inductive GoResult (α : Type) where
  | ok (a : α)
  | err (e : GoErr)
  | panicked
  deriving DecidableEq

/-- `BytePacketBuffer`: 512-byte array plus cursor.  The array is a total
function from positions to byte values; positions ≥ 512 are never read or
written by the (guarded) operations. -/
structure BytePacketBuffer where
  buf : Nat → Nat
  pos : Nat

/-- `NewBytePacketBuffer`: zeroed buffer, cursor 0. -/
def NewBytePacketBuffer : BytePacketBuffer := ⟨fun _ => 0, 0⟩

namespace BytePacketBuffer

/-- `step`: advance the cursor, no check. -/
def step (bpb : BytePacketBuffer) (steps : Nat) : GoResult Unit × BytePacketBuffer :=
  (.ok (), { bpb with pos := bpb.pos + steps })

/-- `seek`: set the cursor, no check. -/
def seek (bpb : BytePacketBuffer) (p : Nat) : GoResult Unit × BytePacketBuffer :=
  (.ok (), { bpb with pos := p })

/-- `read`: one byte at the cursor, advancing it. -/
def read (bpb : BytePacketBuffer) : GoResult Nat × BytePacketBuffer :=
  if bpb.pos ≥ 512 then (.err .endOfBuffer, bpb)
  else (.ok (bpb.buf bpb.pos), { bpb with pos := bpb.pos + 1 })

/-- `get`: one byte at an explicit position, cursor untouched. -/
def get (bpb : BytePacketBuffer) (p : Nat) : GoResult Nat :=
  if p ≥ 512 then .err .endOfBuffer else .ok (bpb.buf p)

/-- `GetRange`: the bytes `[start, start+length)`; errors whenever
`start+length ≥ 512`. -/
def GetRange (bpb : BytePacketBuffer) (start length : Nat) : GoResult (List Nat) :=
  if start + length ≥ 512 then .err .endOfBuffer
  else .ok ((List.range length).map fun i => bpb.buf (start + i))

/-- `readU16`: two `read`s, big-endian (`(uint16(b1) << 8) | uint16(b2)`). -/
def readU16 (bpb : BytePacketBuffer) : GoResult Nat × BytePacketBuffer :=
  match bpb.read with
  | (.ok b1, s1) =>
    match s1.read with
    | (.ok b2, s2) => (.ok ((b1 <<< 8) ||| b2), s2)
    | (.err e, s2) => (.err e, s2)
    | (.panicked, s2) => (.panicked, s2)
  | (.err e, s1) => (.err e, s1)
  | (.panicked, s1) => (.panicked, s1)

/-- `readU32`: four `read`s, big-endian shifted-or. -/
def readU32 (bpb : BytePacketBuffer) : GoResult Nat × BytePacketBuffer :=
  match bpb.read with
  | (.ok b1, s1) =>
    match s1.read with
    | (.ok b2, s2) =>
      match s2.read with
      | (.ok b3, s3) =>
        match s3.read with
        | (.ok b4, s4) => (.ok ((b1 <<< 24) ||| (b2 <<< 16) ||| (b3 <<< 8) ||| b4), s4)
        | (.err e, s4) => (.err e, s4)
        | (.panicked, s4) => (.panicked, s4)
      | (.err e, s3) => (.err e, s3)
      | (.panicked, s3) => (.panicked, s3)
    | (.err e, s2) => (.err e, s2)
    | (.panicked, s2) => (.panicked, s2)
  | (.err e, s1) => (.err e, s1)
  | (.panicked, s1) => (.panicked, s1)

/-- `write`: store one byte (value taken mod 256, the `uint8` type) at the
cursor, advancing it. -/
def write (bpb : BytePacketBuffer) (val : Nat) : GoResult Unit × BytePacketBuffer :=
  if bpb.pos ≥ 512 then (.err .endOfBuffer, bpb)
  else (.ok (),
    { buf := fun i => if i = bpb.pos then val % 256 else bpb.buf i
      pos := bpb.pos + 1 })

/-- `writeU8`: delegates to `write`. -/
def writeU8 (bpb : BytePacketBuffer) (val : Nat) : GoResult Unit × BytePacketBuffer :=
  bpb.write val

/-- `writeU16`: `write(uint8(val >> 8))` then `write(uint8(val & 0xFF))`;
the `% 65536` is the `uint16` parameter type. -/
def writeU16 (bpb : BytePacketBuffer) (val : Nat) : GoResult Unit × BytePacketBuffer :=
  let v := val % 65536
  match bpb.write (v >>> 8) with
  | (.ok _, s1) => s1.write (v &&& 0xFF)
  | (.err e, s1) => (.err e, s1)
  | (.panicked, s1) => (.panicked, s1)

/-- `writeU32`: the four shifted-and-masked bytes of the `uint32` value,
big-endian; the `% 4294967296` is the `uint32` parameter type. -/
def writeU32 (bpb : BytePacketBuffer) (val : Nat) : GoResult Unit × BytePacketBuffer :=
  let v := val % 4294967296
  match bpb.write ((v >>> 24) &&& 0xFF) with
  | (.ok _, s1) =>
    match s1.write ((v >>> 16) &&& 0xFF) with
    | (.ok _, s2) =>
      match s2.write ((v >>> 8) &&& 0xFF) with
      | (.ok _, s3) => s3.write ((v >>> 0) &&& 0xFF)
      | (.err e, s3) => (.err e, s3)
      | (.panicked, s3) => (.panicked, s3)
    | (.err e, s2) => (.err e, s2)
    | (.panicked, s2) => (.panicked, s2)
  | (.err e, s1) => (.err e, s1)
  | (.panicked, s1) => (.panicked, s1)

/-- `set`: `bpb.Buf[pos] = val` with no bounds check; an out-of-range
position is a Go runtime panic. -/
def set (bpb : BytePacketBuffer) (p val : Nat) : GoResult Unit × BytePacketBuffer :=
  if p ≥ 512 then (.panicked, bpb)
  else (.ok (), { bpb with buf := fun i => if i = p then val % 256 else bpb.buf i })

/-- `setU16`: `set(pos, byte(val>>8))` then `set(pos+1, byte(val&0xFF))`;
the `% 65536` is the `uint16` parameter type. -/
def setU16 (bpb : BytePacketBuffer) (p val : Nat) : GoResult Unit × BytePacketBuffer :=
  let v := val % 65536
  match bpb.set p (v >>> 8) with
  | (.ok _, s1) => s1.set (p + 1) (v &&& 0xFF)
  | (.err e, s1) => (.err e, s1)
  | (.panicked, s1) => (.panicked, s1)

end BytePacketBuffer

/-- `strings.Split(s, ".")` on byte strings: split on byte 46. -/
def splitDotAux : List Nat → List Nat → List (List Nat)
  | [], acc => [acc.reverse]
  | c :: rest, acc =>
    if c = 46 then acc.reverse :: splitDotAux rest [] else splitDotAux rest (c :: acc)

/-- The labels of a dotted name (`strings.Split(qname, ".")`). -/
def splitDot (s : GoStr) : List (List Nat) := splitDotAux s []

/-- ASCII lower-casing of one byte (`strings.ToLower` restricted to the
ASCII bytes that appear in DNS names). -/
def toLowerByte (b : Nat) : Nat := if 65 ≤ b ∧ b ≤ 90 then b + 32 else b

/-- A Lean string literal as a Go byte string (ASCII). -/
def strBytes (s : String) : GoStr := s.data.map Char.toNat

namespace BytePacketBuffer

/-- The bytes of one label, written one `writeU8` at a time, stopping at
the first error. -/
def writeBytes (bpb : BytePacketBuffer) : List Nat → GoResult Unit × BytePacketBuffer
  | [] => (.ok (), bpb)
  | b :: rest =>
    match bpb.writeU8 b with
    | (.ok _, s1) => s1.writeBytes rest
    | (.err e, s1) => (.err e, s1)
    | (.panicked, s1) => (.panicked, s1)

/-- The label loop of `writeQname`, followed by the terminating zero
length byte. -/
def writeLabels (bpb : BytePacketBuffer) : List (List Nat) → GoResult Unit × BytePacketBuffer
  | [] => bpb.writeU8 0
  | l :: rest =>
    if l.length > 0x3f then (.err .labelTooLong, bpb)
    else
      match bpb.writeU8 l.length with
      | (.ok _, s1) =>
        match s1.writeBytes l with
        | (.ok _, s2) => s2.writeLabels rest
        | (.err e, s2) => (.err e, s2)
        | (.panicked, s2) => (.panicked, s2)
      | (.err e, s1) => (.err e, s1)
      | (.panicked, s1) => (.panicked, s1)

/-- `writeQname`: split on dots, each label as length byte plus content,
then a zero terminator; a label longer than 63 bytes is an error. -/
def writeQname (bpb : BytePacketBuffer) (qname : GoStr) : GoResult Unit × BytePacketBuffer :=
  bpb.writeLabels (splitDot qname)

/-- One state of the `readQname` loop, fuelled for termination.  `p` is
the local cursor, `jumped`/`jumps` the jump tracking, `delim` the pending
separator, `out` the accumulated output; the shared cursor lives in the
buffer state.  Fuel exhaustion yields the internal `fuelOut` marker. -/
def readQnameLoop (bpb : BytePacketBuffer) :
    Nat → Nat → Bool → Nat → GoStr → GoStr → GoResult GoStr × BytePacketBuffer
  | 0, _, _, _, _, _ => (.err .fuelOut, bpb)
  | fuel + 1, p, jumped, jumps, delim, out =>
    if jumps > 5 then (.err (.jumpLimit 5), bpb)
    else
      match bpb.get p with
      | .err e => (.err e, bpb)
      | .panicked => (.panicked, bpb)
      | .ok len =>
        if len &&& 0xC0 = 0xC0 then
          let s1 := if ¬jumped then { bpb with pos := p + 2 } else bpb
          match s1.get (p + 1) with
          | .err e => (.err e, s1)
          | .panicked => (.panicked, s1)
          | .ok b2 =>
            let offset := ((len ^^^ 0xC0) <<< 8) ||| b2
            s1.readQnameLoop fuel offset true (jumps + 1) delim out
        else
          let p1 := p + 1
          if len = 0 then
            (if ¬jumped then (.ok out, { bpb with pos := p1 }) else (.ok out, bpb))
          else
            match bpb.GetRange p1 len with
            | .err e => (.err e, bpb)
            | .panicked => (.panicked, bpb)
            | .ok strBuffer =>
              bpb.readQnameLoop fuel (p1 + len) jumped jumps (strBytes ".")
                ((out ++ delim) ++ strBuffer.map toLowerByte)

/-- Fuel that the termination theorem shows is always sufficient. -/
def qnameFuel : Nat := 4200

/-- `readQname`: decode the name at the shared cursor, appending to the
caller's string `out` (always `""` at the call sites in this repo). -/
def readQname (bpb : BytePacketBuffer) (out : GoStr) : GoResult GoStr × BytePacketBuffer :=
  bpb.readQnameLoop qnameFuel bpb.pos false 0 [] out

end BytePacketBuffer

/-- Sequencing with Go's checked-error pattern: on `err` (or panic) return
early, threading the receiver's state as mutated so far. -/
def mbind {α β : Type} (r : GoResult α × BytePacketBuffer)
    (f : α → BytePacketBuffer → GoResult β × BytePacketBuffer) :
    GoResult β × BytePacketBuffer :=
  match r with
  | (.ok a, s) => f a s
  | (.err e, s) => (.err e, s)
  | (.panicked, s) => (.panicked, s)

/-- Sequencing for a call whose returned error the Go code ignores: the
state is kept and execution continues whether the call succeeded or
errored; a panic still aborts. -/
def mdrop {α β : Type} (r : GoResult α × BytePacketBuffer)
    (f : BytePacketBuffer → GoResult β × BytePacketBuffer) :
    GoResult β × BytePacketBuffer :=
  match r with
  | (.ok _, s) => f s
  | (.err _, s) => f s
  | (.panicked, s) => (.panicked, s)

/-- The `ResultCode` constants.  The Go type is an integer type, so the
field is modelled as a raw `Nat` (decoding produces any 4-bit value). -/
def NOERROR : Nat := 0
def FORMERR : Nat := 1
def SERVFAIL : Nat := 2
def NXDOMAIN : Nat := 3
def NOTIMP : Nat := 4
def REFUSED : Nat := 5

/-- `DnsHeader` with its Go field set; `Rescode` and `opcode` as raw
numbers, the four counts as `Nat` (written mod 2^16). -/
structure DnsHeader where
  Id : Nat
  RecursionDesired : Bool
  truncatedMessage : Bool
  authoritativeAnswer : Bool
  opcode : Nat
  Response : Bool
  Rescode : Nat
  checkingDisabled : Bool
  authedData : Bool
  z : Bool
  RecursionAvailable : Bool
  Questions : Nat
  answers : Nat
  authoritativeEntries : Nat
  resourceEntries : Nat
  deriving DecidableEq

/-- `NewDnsHeader`: the zero value. -/
def NewDnsHeader : DnsHeader :=
  ⟨0, false, false, false, 0, false, 0, false, false, false, false, 0, 0, 0, 0⟩

/-- Go's bool-to-bit. -/
def b2n (b : Bool) : Nat := if b then 1 else 0

/-- `DnsHeader.read`: id, two flag bytes split bit-by-bit, four counts. -/
def DnsHeader.read (bpb : BytePacketBuffer) : GoResult DnsHeader × BytePacketBuffer :=
  mbind bpb.readU16 fun id s1 =>
  mbind s1.readU16 fun flags s2 =>
  let a := flags >>> 8
  let b := flags &&& 0xFF
  mbind s2.readU16 fun questions s3 =>
  mbind s3.readU16 fun answers s4 =>
  mbind s4.readU16 fun authoritative s5 =>
  mbind s5.readU16 fun resource s6 =>
  (.ok
    { Id := id
      RecursionDesired := (a &&& 1) > 0
      truncatedMessage := (a &&& 2) > 0
      authoritativeAnswer := (a &&& 4) > 0
      opcode := (a >>> 3) &&& 0x0F
      Response := (a &&& 128) > 0
      Rescode := b &&& 0x0F
      checkingDisabled := (b &&& 16) > 0
      authedData := (b &&& 32) > 0
      z := (b &&& 64) > 0
      RecursionAvailable := (b &&& 128) > 0
      Questions := questions
      answers := answers
      authoritativeEntries := authoritative
      resourceEntries := resource }, s6)

/-- `DnsHeader.write`: mirror of `read`; the flag bytes are rebuilt by
or-ing bits (`opcode << 3` wraps in `uint8` as in Go). -/
def DnsHeader.write (h : DnsHeader) (bpb : BytePacketBuffer) :
    GoResult Unit × BytePacketBuffer :=
  let flags1 := b2n h.RecursionDesired ||| (b2n h.truncatedMessage <<< 1) |||
    (b2n h.authoritativeAnswer <<< 2) ||| (((h.opcode % 256) <<< 3) % 256) |||
    (b2n h.Response <<< 7)
  let flags2 := (h.Rescode % 256) ||| (b2n h.checkingDisabled <<< 4) |||
    (b2n h.authedData <<< 5) ||| (b2n h.z <<< 6) ||| (b2n h.RecursionAvailable <<< 7)
  mbind (bpb.writeU16 h.Id) fun _ s1 =>
  mbind (s1.writeU8 flags1) fun _ s2 =>
  mbind (s2.writeU8 flags2) fun _ s3 =>
  mbind (s3.writeU16 h.Questions) fun _ s4 =>
  mbind (s4.writeU16 h.answers) fun _ s5 =>
  mbind (s5.writeU16 h.authoritativeEntries) fun _ s6 =>
  mbind (s6.writeU16 h.resourceEntries) fun _ s7 => (.ok (), s7)

/-- `QueryType` and its numeric mapping (queryType.go). -/
inductive QueryType where
  | UNKNOWN | A | NS | CNAME | MX | AAAA
  deriving DecidableEq

def QueryTypeFromNum (num : Nat) : QueryType :=
  if num = 1 then .A
  else if num = 2 then .NS
  else if num = 5 then .CNAME
  else if num = 15 then .MX
  else if num = 28 then .AAAA
  else .UNKNOWN

def QueryType.ToNum : QueryType → Nat
  | .A => 1
  | .NS => 2
  | .CNAME => 5
  | .MX => 15
  | .AAAA => 28
  | .UNKNOWN => 0

/-- `DnsQuestion` (name, 16-bit type code; class implicit). -/
structure DnsQuestion where
  Name : GoStr
  Qtype : Nat
  deriving DecidableEq

def newDnsQuestion (name : GoStr) (qtype : Nat) : DnsQuestion := ⟨name, qtype⟩

/-- `DnsQuestion.read`: qname (appending to the question's current name,
always empty at the call sites), type code, discarded class. -/
def DnsQuestion.read (dq : DnsQuestion) (bpb : BytePacketBuffer) :
    GoResult DnsQuestion × BytePacketBuffer :=
  mbind (bpb.readQname dq.Name) fun name s1 =>
  mbind s1.readU16 fun qtypeNum s2 =>
  mbind s2.readU16 fun _ s3 => (.ok ⟨name, qtypeNum⟩, s3)

/-- `DnsQuestion.write`: qname, type code, class 1. -/
def DnsQuestion.write (dq : DnsQuestion) (bpb : BytePacketBuffer) :
    GoResult Unit × BytePacketBuffer :=
  mbind (bpb.writeQname dq.Name) fun _ s1 =>
  mbind (s1.writeU16 dq.Qtype) fun _ s2 =>
  mbind (s2.writeU16 1) fun _ s3 => (.ok (), s3)

/-- The record variants (dnsRecord.go).  `A` addresses are the four
octets `net.IPv4` is given (every `ARecord` in this program is built that
way, so `To4` always yields them back); `AAAA` addresses are the raw byte
list of the `net.IP` value. -/
inductive DnsRecord where
  | Unknown (Domain : GoStr) (QType : Nat) (DataLen : Nat) (TTL : Nat)
  | A (Domain : GoStr) (Addr : Nat × Nat × Nat × Nat) (TTL : Nat)
  | NS (Domain : GoStr) (Host : GoStr) (TTL : Nat)
  | CNAME (Domain : GoStr) (Host : GoStr) (TTL : Nat)
  | MX (Domain : GoStr) (Priority : Nat) (Host : GoStr) (TTL : Nat)
  | AAAA (Domain : GoStr) (Addr : List Nat) (TTL : Nat)
  deriving DecidableEq

/-- `ReadDnsRecord`: shared preamble then dispatch on the mapped type.
The CNAME arm returns the `NS` variant, exactly as the source does. -/
def ReadDnsRecord (bpb : BytePacketBuffer) : GoResult DnsRecord × BytePacketBuffer :=
  mbind (bpb.readQname []) fun domain s1 =>
  mbind s1.readU16 fun qtypeNum s2 =>
  mbind s2.readU16 fun _ s3 =>
  mbind s3.readU32 fun ttl s4 =>
  mbind s4.readU16 fun dataLen s5 =>
  match QueryTypeFromNum qtypeNum with
  | .A =>
    mbind s5.readU32 fun raw s6 =>
    (.ok (.A domain ((raw >>> 24) &&& 0xFF, (raw >>> 16) &&& 0xFF,
      (raw >>> 8) &&& 0xFF, raw &&& 0xFF) ttl), s6)
  | .AAAA =>
    mbind s5.readU32 fun w1 s6 =>
    mbind s6.readU32 fun w2 s7 =>
    mbind s7.readU32 fun w3 s8 =>
    mbind s8.readU32 fun w4 s9 =>
    (.ok (.AAAA domain
      [((w1 >>> 16) &&& 0xFFFF) % 256, (w1 &&& 0xFFFF) % 256,
       ((w2 >>> 16) &&& 0xFFFF) % 256, (w2 &&& 0xFFFF) % 256,
       ((w3 >>> 16) &&& 0xFFFF) % 256, (w3 &&& 0xFFFF) % 256,
       ((w4 >>> 16) &&& 0xFFFF) % 256, (w4 &&& 0xFFFF) % 256] ttl), s9)
  | .NS =>
    mbind (s5.readQname []) fun ns s6 => (.ok (.NS domain ns ttl), s6)
  | .CNAME =>
    mbind (s5.readQname []) fun cname s6 => (.ok (.NS domain cname ttl), s6)
  | .MX =>
    mbind s5.readU16 fun priority s6 =>
    mbind (s6.readQname []) fun mx s7 => (.ok (.MX domain priority mx ttl), s7)
  | .UNKNOWN =>
    mbind (s5.step dataLen) fun _ s6 =>
    (.ok (.Unknown domain qtypeNum dataLen ttl), s6)

/-- `net.IP.To16().length` for the byte lengths that can occur: a 16-byte
value stays, a 4-byte value is widened to 16, anything else yields nil
(length 0).  The AAAA encode loop only uses this length. -/
def goTo16Len (n : Nat) : Nat := if n = 16 then 16 else if n = 4 then 16 else 0

/-- The AAAA encode loop `for octet := range record.Addr.To16() {
buffer.writeU16(uint16(octet)) }`: `octet` ranges over the indices, and
each returned error is ignored. -/
def BytePacketBuffer.writeIdxWords (bpb : BytePacketBuffer) :
    List Nat → GoResult Unit × BytePacketBuffer
  | [] => (.ok (), bpb)
  | i :: rest => mdrop (bpb.writeU16 i) fun s1 => s1.writeIdxWords rest

/-- `WriteDnsRecord`: returns the byte count `buffer.Pos - startPos`.
Only the CNAME arm checks its write errors; the A/NS/MX/AAAA arms ignore
them (Go discards the returned error), and the Unknown arm only prints.
The Go type-switch default (a record value of some seventh type) cannot
arise for this closed variant type. -/
def WriteDnsRecord (dr : DnsRecord) (bpb : BytePacketBuffer) :
    GoResult Nat × BytePacketBuffer :=
  let startPos := bpb.pos
  match dr with
  | .A domain (o1, o2, o3, o4) ttl =>
    mdrop (bpb.writeQname domain) fun s1 =>
    mdrop (s1.writeU16 QueryType.A.ToNum) fun s2 =>
    mdrop (s2.writeU16 1) fun s3 =>
    mdrop (s3.writeU32 ttl) fun s4 =>
    mdrop (s4.writeU16 4) fun s5 =>
    mdrop (s5.writeU8 o1) fun s6 =>
    mdrop (s6.writeU8 o2) fun s7 =>
    mdrop (s7.writeU8 o3) fun s8 =>
    mdrop (s8.writeU8 o4) fun s9 => (.ok (s9.pos - startPos), s9)
  | .NS domain host ttl =>
    mdrop (bpb.writeQname domain) fun s1 =>
    mdrop (s1.writeU16 QueryType.NS.ToNum) fun s2 =>
    mdrop (s2.writeU16 1) fun s3 =>
    mdrop (s3.writeU32 ttl) fun s4 =>
    let p := s4.pos
    mdrop (s4.writeU16 0) fun s5 =>
    mdrop (s5.writeQname host) fun s6 =>
    let size : Int := (s6.pos : Int) - ((p : Int) + 2)
    mdrop (s6.setU16 p (size % 65536).toNat) fun s7 => (.ok (s7.pos - startPos), s7)
  | .CNAME domain host ttl =>
    mbind (bpb.writeQname domain) fun _ s1 =>
    mbind (s1.writeU16 QueryType.CNAME.ToNum) fun _ s2 =>
    mbind (s2.writeU16 1) fun _ s3 =>
    mbind (s3.writeU32 ttl) fun _ s4 =>
    let p := s4.pos
    mbind (s4.writeU16 0) fun _ s5 =>
    mbind (s5.writeQname host) fun _ s6 =>
    let size : Int := (s6.pos : Int) - ((p : Int) + 2)
    mbind (s6.setU16 p (size % 65536).toNat) fun _ s7 => (.ok (s7.pos - startPos), s7)
  | .MX domain priority host ttl =>
    mdrop (bpb.writeQname domain) fun s1 =>
    mdrop (s1.writeU16 QueryType.MX.ToNum) fun s2 =>
    mdrop (s2.writeU16 1) fun s3 =>
    mdrop (s3.writeU32 ttl) fun s4 =>
    let p := s4.pos
    mdrop (s4.writeU16 0) fun s5 =>
    mdrop (s5.writeU16 priority) fun s6 =>
    mdrop (s6.writeQname host) fun s7 =>
    let size : Int := (s7.pos : Int) - ((p : Int) + 2)
    mdrop (s7.setU16 p (size % 65536).toNat) fun s8 => (.ok (s8.pos - startPos), s8)
  | .AAAA domain addr ttl =>
    mdrop (bpb.writeQname domain) fun s1 =>
    mdrop (s1.writeU16 QueryType.AAAA.ToNum) fun s2 =>
    mdrop (s2.writeU16 1) fun s3 =>
    mdrop (s3.writeU32 ttl) fun s4 =>
    mdrop (s4.writeU16 16) fun s5 =>
    mdrop (s5.writeIdxWords (List.range (goTo16Len addr.length))) fun s6 =>
    (.ok (s6.pos - startPos), s6)
  | .Unknown _ _ _ _ => (.ok (bpb.pos - startPos), bpb)

/-- `DnsPacket`. -/
structure DnsPacket where
  Header : DnsHeader
  Questions : List DnsQuestion
  Answers : List DnsRecord
  Authorities : List DnsRecord
  Resources : List DnsRecord
  deriving DecidableEq

def NewDnsPacket : DnsPacket := ⟨NewDnsHeader, [], [], [], []⟩

/-- The question-section decode loop of `DnsPacketFromBuffer`. -/
def readQuestions (bpb : BytePacketBuffer) :
    Nat → GoResult (List DnsQuestion) × BytePacketBuffer
  | 0 => (.ok [], bpb)
  | n + 1 =>
    mbind ((newDnsQuestion [] QueryType.UNKNOWN.ToNum).read bpb) fun q s1 =>
    mbind (readQuestions s1 n) fun qs s2 => (.ok (q :: qs), s2)

/-- A record-section decode loop of `DnsPacketFromBuffer`. -/
def readRecords (bpb : BytePacketBuffer) :
    Nat → GoResult (List DnsRecord) × BytePacketBuffer
  | 0 => (.ok [], bpb)
  | n + 1 =>
    mbind (ReadDnsRecord bpb) fun r s1 =>
    mbind (readRecords s1 n) fun rs s2 => (.ok (r :: rs), s2)

/-- `DnsPacketFromBuffer`: header, then exactly the counted questions and
records per section, failing on the first section error.  (Go also hands
back the partially decoded packet next to the error; no caller reads it,
so the error case here carries only the error.) -/
def DnsPacketFromBuffer (bpb : BytePacketBuffer) : GoResult DnsPacket × BytePacketBuffer :=
  mbind (DnsHeader.read bpb) fun h s1 =>
  mbind (readQuestions s1 h.Questions) fun qs s2 =>
  mbind (readRecords s2 h.answers) fun ans s3 =>
  mbind (readRecords s3 h.authoritativeEntries) fun auth s4 =>
  mbind (readRecords s4 h.resourceEntries) fun res s5 =>
  (.ok ⟨h, qs, ans, auth, res⟩, s5)

/-- The question-section encode loop of `DnsPacket.Write`. -/
def writeQuestionList (bpb : BytePacketBuffer) :
    List DnsQuestion → GoResult Unit × BytePacketBuffer
  | [] => (.ok (), bpb)
  | q :: rest => mbind (q.write bpb) fun _ s1 => writeQuestionList s1 rest

/-- A record-section encode loop of `DnsPacket.Write` (the returned byte
count is discarded, the error is checked). -/
def writeRecordList (bpb : BytePacketBuffer) :
    List DnsRecord → GoResult Unit × BytePacketBuffer
  | [] => (.ok (), bpb)
  | r :: rest => mbind (WriteDnsRecord r bpb) fun _ s1 => writeRecordList s1 rest

/-- `DnsPacket.Write`: overwrite the four header counts with the actual
list lengths (as `uint16`), then header, questions, answers, authorities,
resources. -/
def DnsPacket.Write (p : DnsPacket) (bpb : BytePacketBuffer) :
    GoResult Unit × BytePacketBuffer :=
  let h := { p.Header with
    Questions := p.Questions.length % 65536
    answers := p.Answers.length % 65536
    authoritativeEntries := p.Authorities.length % 65536
    resourceEntries := p.Resources.length % 65536 }
  mbind (h.write bpb) fun _ s1 =>
  mbind (writeQuestionList s1 p.Questions) fun _ s2 =>
  mbind (writeRecordList s2 p.Answers) fun _ s3 =>
  mbind (writeRecordList s3 p.Authorities) fun _ s4 =>
  mbind (writeRecordList s4 p.Resources) fun _ s5 => (.ok (), s5)

/-- First A record of the answer section (`GetRandomA`). -/
def firstA : List DnsRecord → Option (Nat × Nat × Nat × Nat)
  | [] => none
  | .A _ addr _ :: _ => some addr
  | _ :: rest => firstA rest

def DnsPacket.GetRandomA (p : DnsPacket) : Option (Nat × Nat × Nat × Nat) :=
  firstA p.Answers

/-- `strings.HasSuffix(s, suffix)`. -/
def goHasSuffix (s suffix : GoStr) : Bool :=
  decide (suffix.length ≤ s.length) && decide (s.drop (s.length - suffix.length) = suffix)

/-- An element of the `[]NSRecord` slice `getNs` builds. -/
structure NSRecordData where
  Domain : GoStr
  Host : GoStr
  TTL : Nat
  deriving DecidableEq

/-- The authority scan of `getNs`: keep `NSRecord` values whose domain is
a suffix of the query name. -/
def getNsAux (qname : GoStr) : List DnsRecord → List NSRecordData
  | [] => []
  | .NS d h t :: rest =>
    if goHasSuffix qname d then ⟨d, h, t⟩ :: getNsAux qname rest else getNsAux qname rest
  | _ :: rest => getNsAux qname rest

def DnsPacket.getNs (p : DnsPacket) (qname : GoStr) : List NSRecordData :=
  getNsAux qname p.Authorities

/-- Inner loop of `GetResolvedNs`: the first additional-section A record
whose domain equals the given host. -/
def findAForHost (host : GoStr) : List DnsRecord → Option (Nat × Nat × Nat × Nat)
  | [] => none
  | .A d addr _ :: rest => if d = host then some addr else findAForHost host rest
  | _ :: rest => findAForHost host rest

/-- Outer loop of `GetResolvedNs` over the matched nameservers. -/
def resolveNsList (resources : List DnsRecord) : List NSRecordData →
    Option (Nat × Nat × Nat × Nat)
  | [] => none
  | ns :: rest =>
    match findAForHost ns.Host resources with
    | some a => some a
    | none => resolveNsList resources rest

def DnsPacket.GetResolvedNs (p : DnsPacket) (qname : GoStr) :
    Option (Nat × Nat × Nat × Nat) :=
  resolveNsList p.Resources (p.getNs qname)

/-- `GetUnresolvedNS`: the loop returns the first matched nameserver's
host unconditionally, or the empty string. -/
def DnsPacket.GetUnresolvedNS (p : DnsPacket) (qname : GoStr) : GoStr :=
  match p.getNs qname with
  | [] => []
  | ns :: _ => ns.Host

/-- What one iteration of `recursiveLookup` (main.go) decides to do with
the reply it received, before any further network traffic. -/
inductive ResolveAction where
  | returnReply
  | switchNs (ip : Nat × Nat × Nat × Nat)
  | subResolve (host : GoStr)
  deriving DecidableEq

/-- The decision chain of the `recursiveLookup` loop body: accept the
reply (answers with NOERROR, or NXDOMAIN, or no delegation data), switch
to a glue address, or recursively resolve an unresolved nameserver. -/
def recursiveStep (response : DnsPacket) (qname : GoStr) : ResolveAction :=
  if response.Answers.length > 0 ∧ response.Header.Rescode = NOERROR then .returnReply
  else if response.Header.Rescode = NXDOMAIN then .returnReply
  else
    match response.GetResolvedNs qname with
    | some ip => .switchNs ip
    | none =>
      let newNSName := response.GetUnresolvedNS qname
      if newNSName ≠ [] then .subResolve newNSName else .returnReply

/-! Helper definitions used by the statements below. -/

/-- Did the call return a value (`err == nil` in Go)? -/
def isOk {α : Type} : GoResult α → Bool
  | .ok _ => true
  | _ => false

/-- Did the fuelled qname loop come back with a real outcome (a name or a
genuine error) rather than the internal fuel marker? -/
def settled : GoResult GoStr → Bool
  | .err .fuelOut => false
  | _ => true

/-- The first `n` bytes of a buffer's array. -/
def bufBytes (bpb : BytePacketBuffer) (n : Nat) : List Nat :=
  (List.range n).map bpb.buf

/-- The big-endian 16-bit value stored at `p`. -/
def bufU16 (bpb : BytePacketBuffer) (p : Nat) : Nat :=
  bpb.buf p * 256 + bpb.buf (p + 1)

/-- On-wire size of an encoded label list: a length byte per label plus
its content, then the zero terminator. -/
def labelsWireLen (ls : List (List Nat)) : Nat :=
  (ls.map fun l => 1 + l.length).sum + 1

/-- On-wire size of an encoded qname. -/
def qnameWireLen (q : GoStr) : Nat := labelsWireLen (splitDot q)

/-- Specification-side reading of the authority scan: the hosts of the NS
records whose domain is a list-suffix of the query name, in order. -/
def nsHostsMatching (qname : GoStr) : List DnsRecord → List GoStr
  | [] => []
  | .NS d h _ :: rest =>
    if d.isSuffixOf qname then h :: nsHostsMatching qname rest
    else nsHostsMatching qname rest
  | _ :: rest => nsHostsMatching qname rest

/-- The decision loop measure: jumps remaining weighted above the local
cursor's distance from the end of the addressable range. -/
def qnameMeasure (jumps p : Nat) : Nat :=
  (6 - jumps) * 514 + (513 - min p 513)

/-! Concrete inputs used by counterexamples and evaluations. -/

/-- A buffer whose first two bytes are a compression pointer to offset 0:
a pointer that points at itself. -/
def selfPointerBuffer : BytePacketBuffer :=
  ⟨fun i => if i = 0 then 192 else 0, 0⟩

/-- A packet whose only record is a CNAME answer. -/
def cnamePacket : DnsPacket :=
  { Header := NewDnsHeader
    Questions := []
    Answers := [.CNAME (strBytes "a") (strBytes "b") 7]
    Authorities := []
    Resources := [] }

/-- The buffer produced by encoding `cnamePacket`, rewound for decoding
(the server flow decodes received bytes from position 0). -/
def cnameWire : BytePacketBuffer :=
  { (cnamePacket.Write NewBytePacketBuffer).2 with pos := 0 }

/-- An AAAA record with a full 16-byte address of 0xFF bytes. -/
def aaaaSample : DnsRecord := .AAAA (strBytes "a") (List.replicate 16 255) 0

/-- An NS record whose host is the spec's length-patching example. -/
def nsSample : DnsRecord := .NS (strBytes "a") (strBytes "ns1.example.com") 0

/-- A reply whose only matching nameserver has a glue A record: the
authority NS for "com" (host "ns.com") and an additional A record whose
domain equals that host. -/
def gluedReply : DnsPacket :=
  { Header := NewDnsHeader
    Questions := []
    Answers := []
    Authorities := [.NS (strBytes "com") (strBytes "ns.com") 0]
    Resources := [.A (strBytes "ns.com") (1, 2, 3, 4) 0] }

/-- An authority section with a single NS record for domain "com". -/
def comNsReply : DnsPacket :=
  { Header := NewDnsHeader
    Questions := []
    Answers := []
    Authorities := [.NS (strBytes "com") (strBytes "ns.com") 0]
    Resources := [] }

/-- An NXDOMAIN reply with no answers but a populated authority and
additional section. -/
def nxdomainReply : DnsPacket :=
  { Header := { NewDnsHeader with Rescode := NXDOMAIN }
    Questions := []
    Answers := []
    Authorities := [.NS (strBytes "com") (strBytes "ns.com") 0]
    Resources := [.A (strBytes "ns.com") (1, 2, 3, 4) 0] }

/-- Wire bytes of a record of unsupported type 99 (domain "x", TTL 3,
data length 5): preamble then five opaque payload bytes. -/
def unknownWire : BytePacketBuffer :=
  ⟨fun i => ([1, 120, 0, 0, 99, 0, 1, 0, 0, 0, 3, 0, 5, 9, 9, 9, 9, 9].getD i 0 : Nat), 0⟩

/-! Claim theorems. -/

/-- C1: encoding a packet whose only record is a CNAME and decoding the
resulting bytes does not reproduce the packet: the CNAME answer comes
back as the structurally identical NS variant (the `ReadDnsRecord` CNAME
arm builds an `NSRecord`), so the round-trip property fails for the
supported type CNAME even though every write succeeded. -/
theorem cname_roundtrip_loses_variant :
    (cnamePacket.Write NewBytePacketBuffer).1 = .ok () ∧
    (DnsPacketFromBuffer cnameWire).1 =
      .ok { Header := { NewDnsHeader with answers := 1 }
            Questions := []
            Answers := [.NS (strBytes "a") (strBytes "b") 7]
            Authorities := []
            Resources := [] } ∧
    DnsRecord.NS (strBytes "a") (strBytes "b") 7 ≠
      DnsRecord.CNAME (strBytes "a") (strBytes "b") 7 := by
  refine ⟨by decide, by decide, by decide⟩

/-- C4: encoding an AAAA record writes a resource-data-length field of 16
but then 32 payload bytes — the 16-bit values of the loop indices 0..15
(`for octet := range record.Addr.To16()` ranges over indices) — instead
of the record's 16 address bytes (here all 0xFF). -/
theorem aaaa_write_emits_index_words :
    (WriteDnsRecord aaaaSample NewBytePacketBuffer).1 = .ok 45 ∧
    bufBytes (WriteDnsRecord aaaaSample NewBytePacketBuffer).2 45 =
      [1, 97, 0, 0, 28, 0, 1, 0, 0, 0, 0, 0, 16,
       0, 0, 0, 1, 0, 2, 0, 3, 0, 4, 0, 5, 0, 6, 0, 7,
       0, 8, 0, 9, 0, 10, 0, 11, 0, 12, 0, 13, 0, 14, 0, 15] ∧
    (bufBytes (WriteDnsRecord aaaaSample NewBytePacketBuffer).2 45).drop 13 ≠
      List.replicate 16 255 := by
  refine ⟨by decide, by decide, by decide⟩

/-- C5, counterexample: encoding an Unknown record does not fail — it
returns success with zero bytes written and the buffer untouched. -/
theorem unknown_record_write_succeeds :
    WriteDnsRecord (.Unknown (strBytes "x") 99 5 3) NewBytePacketBuffer =
      (.ok 0, NewBytePacketBuffer) ∧
    isOk (WriteDnsRecord (.Unknown (strBytes "x") 99 5 3) NewBytePacketBuffer).1 = true :=
  ⟨rfl, rfl⟩

/-- C3, counterexample: `set` at position 512 is an unchecked
out-of-range store — a runtime panic, not an "end of buffer" error — and
`setU16` at 511 likewise panics on its second byte. -/
theorem set_out_of_range_panics_not_eob :
    (NewBytePacketBuffer.set 512 0).1 = .panicked ∧
    (NewBytePacketBuffer.set 512 0).1 ≠ .err .endOfBuffer ∧
    (NewBytePacketBuffer.setU16 511 0).1 = .panicked := by
  refine ⟨by decide, by decide, by decide⟩

/-- C6, counterexample: in a reply whose only matching nameserver has a
matching additional-section A record (so `GetResolvedNs` finds an
address), `GetUnresolvedNS` still returns that nameserver's host instead
of the empty result the claim requires. -/
theorem unresolved_ns_returned_despite_glue :
    gluedReply.GetUnresolvedNS (strBytes "com") = strBytes "ns.com" ∧
    gluedReply.GetResolvedNs (strBytes "com") = some (1, 2, 3, 4) ∧
    strBytes "ns.com" ≠ ([] : GoStr) := by
  refine ⟨by decide, by decide, by decide⟩

/-- C7: a reply with result code NXDOMAIN and no answers makes the
`recursiveLookup` loop body return the reply at once
(`ResolveAction.returnReply`), whatever the authority and additional
sections hold; no nameserver switch or sub-resolution (the actions that
issue further queries) occurs. -/
theorem nxdomain_reply_is_terminal (response : DnsPacket) (qname : GoStr)
    (hrc : response.Header.Rescode = NXDOMAIN) (hans : response.Answers = []) :
    recursiveStep response qname = .returnReply := by
  unfold recursiveStep
  rw [hrc, hans]
  simp [NXDOMAIN, NOERROR]

/-- C7 witness: the terminal-NXDOMAIN theorem at a concrete reply whose
authority and additional sections are populated. -/
theorem nxdomain_reply_is_terminal_witness :
    recursiveStep nxdomainReply (strBytes "com") = .returnReply :=
  nxdomain_reply_is_terminal nxdomainReply (strBytes "com") rfl rfl

/-- C10: `GetRange` succeeds exactly when `start + length ≤ 511`, and a
range ending exactly at the 512-byte capacity (`start + length = 512`),
though entirely inside the buffer, is rejected with the end-of-buffer
error — the last byte of a full buffer can never be part of a returned
range. -/
theorem getrange_rejects_final_byte :
    (∀ (bpb : BytePacketBuffer) (start length : Nat),
      isOk (bpb.GetRange start length) = decide (start + length ≤ 511)) ∧
    (∀ (bpb : BytePacketBuffer) (start length : Nat), start + length = 512 →
      bpb.GetRange start length = .err .endOfBuffer) := by
  constructor
  · intro bpb s l
    by_cases h : s + l ≥ 512
    · rw [BytePacketBuffer.GetRange, if_pos h]
      have h2 : ¬ s + l ≤ 511 := by omega
      simp [isOk, h2]
    · rw [BytePacketBuffer.GetRange, if_neg h]
      have h2 : s + l ≤ 511 := by omega
      simp [isOk, h2]
  · intro bpb s l h
    simp only [BytePacketBuffer.GetRange, if_pos (by omega : s + l ≥ 512)]

/-- Termination of the qname decompression loop: with fuel above the
measure (jumps remaining weighted over cursor headroom) the loop always
reaches a real outcome.  Each non-jump step advances the local cursor
while it is readable, and each jump consumes one of the at most six
permitted jump-counter values. -/
theorem readQnameLoop_settled (fuel : Nat) :
    ∀ (p jumps : Nat) (jumped : Bool) (delim out : GoStr) (bpb : BytePacketBuffer),
      qnameMeasure jumps p < fuel →
      settled (bpb.readQnameLoop fuel p jumped jumps delim out).1 = true := by
  induction fuel with
  | zero =>
    intro p jumps jumped delim out bpb h
    exact absurd h (Nat.not_lt_zero _)
  | succ fuel ih =>
    intro p jumps jumped delim out bpb h
    simp only [BytePacketBuffer.readQnameLoop]
    split
    · rfl
    · next hj =>
      split
      · next e hget =>
        rw [BytePacketBuffer.get] at hget
        split at hget
        · injection hget with h2
          subst h2
          rfl
        · exact GoResult.noConfusion hget
      · next hget =>
        rw [BytePacketBuffer.get] at hget
        split at hget <;> exact GoResult.noConfusion hget
      · next len hget =>
        have hp : p < 512 := by
          by_contra hc
          rw [BytePacketBuffer.get, if_pos (by omega)] at hget
          exact GoResult.noConfusion hget
        split
        · next hlen =>
          split
          · next e hget2 =>
            rw [BytePacketBuffer.get] at hget2
            split at hget2
            · injection hget2 with h2
              subst h2
              rfl
            · exact GoResult.noConfusion hget2
          · next hget2 =>
            rw [BytePacketBuffer.get] at hget2
            split at hget2 <;> exact GoResult.noConfusion hget2
          · next b2 hget2 =>
            apply ih
            have h1 : min ((len ^^^ 0xC0) <<< 8 ||| b2) 513 ≤ 513 := Nat.min_le_right _ _
            have h2 : min p 513 ≤ 513 := Nat.min_le_right _ _
            unfold qnameMeasure at h ⊢
            omega
        · next hlen =>
          split
          · split <;> rfl
          · next hz =>
            split
            · next e hrange =>
              rw [BytePacketBuffer.GetRange] at hrange
              split at hrange
              · injection hrange with h2
                subst h2
                rfl
              · exact GoResult.noConfusion hrange
            · next hrange =>
              rw [BytePacketBuffer.GetRange] at hrange
              split at hrange <;> exact GoResult.noConfusion hrange
            · next l hrange =>
              apply ih
              have h1 : p + 1 ≤ min (p + 1 + len) 513 := le_min (by omega) (by omega)
              have h2 : min p 513 = p := Nat.min_eq_left (by omega)
              unfold qnameMeasure at h ⊢
              omega

/-- The fixed fuel dominates the measure from any start state. -/
theorem readQname_settles (bpb : BytePacketBuffer) (out : GoStr) :
    settled (bpb.readQname out).1 = true := by
  apply readQnameLoop_settled
  have h1 : min bpb.pos 513 ≤ 513 := Nat.min_le_right _ _
  unfold qnameMeasure BytePacketBuffer.qnameFuel
  omega

/-- C2: `readQname` terminates for every buffer contents and starting
cursor, yielding a decoded name or a genuine error (never the fuel
marker, so the loop cannot run unboundedly); and on the pointer that
points at itself the sixth jump trips the guard and the result is the
jump-limit error. -/
theorem readqname_terminates_with_jump_guard :
    (∀ (bpb : BytePacketBuffer) (out : GoStr), settled (bpb.readQname out).1 = true) ∧
    (selfPointerBuffer.readQname []).1 = .err (.jumpLimit 5) :=
  ⟨readQname_settles, by decide⟩

/-- `strings.HasSuffix(s, t)` — length test plus trailing-slice equality —
agrees with the mathematical suffix relation on byte lists. -/
theorem goHasSuffix_iff (s t : GoStr) : goHasSuffix s t = true ↔ t <:+ s := by
  unfold goHasSuffix
  rw [Bool.and_eq_true, decide_eq_true_eq, decide_eq_true_eq]
  constructor
  · rintro ⟨h1, h2⟩
    rw [← h2]
    exact List.drop_suffix _ _
  · intro h
    refine ⟨h.length_le, ?_⟩
    obtain ⟨u, hu⟩ := h
    subst hu
    rw [List.length_append, Nat.add_sub_cancel, List.drop_left]

/-- Membership in the authority scan: exactly the NS records whose domain
is a suffix of the query name. -/
theorem getNsAux_mem (q : GoStr) (rs : List DnsRecord) (r : NSRecordData) :
    r ∈ getNsAux q rs ↔ DnsRecord.NS r.Domain r.Host r.TTL ∈ rs ∧ r.Domain <:+ q := by
  obtain ⟨rd, rh, rt⟩ := r
  induction rs with
  | nil => simp [getNsAux]
  | cons a rest ih =>
    cases a with
    | NS d h t =>
      rw [getNsAux]
      by_cases hs : goHasSuffix q d = true
      · rw [if_pos hs]
        rw [goHasSuffix_iff] at hs
        simp only [List.mem_cons, ih]
        constructor
        · rintro (he | ⟨hm, hsuf⟩)
          · injection he with e1 e2 e3
            subst e1; subst e2; subst e3
            exact ⟨Or.inl rfl, hs⟩
          · exact ⟨Or.inr hm, hsuf⟩
        · rintro ⟨hm | hm, hsuf⟩
          · injection hm with e1 e2 e3
            subst e1; subst e2; subst e3
            exact Or.inl rfl
          · exact Or.inr ⟨hm, hsuf⟩
      · rw [if_neg hs]
        rw [ih]
        simp only [List.mem_cons]
        constructor
        · rintro ⟨hm, hsuf⟩
          exact ⟨Or.inr hm, hsuf⟩
        · rintro ⟨hm | hm, hsuf⟩
          · injection hm with e1 e2 e3
            subst e1
            exact absurd ((goHasSuffix_iff q _).mpr hsuf) hs
          · exact ⟨hm, hsuf⟩
    | Unknown d qt dl t => simp [getNsAux, ih]
    | A d addr t => simp [getNsAux, ih]
    | CNAME d h t => simp [getNsAux, ih]
    | MX d pr h t => simp [getNsAux, ih]
    | AAAA d addr t => simp [getNsAux, ih]

/-- C9: `getNs` keeps exactly the authority NS records whose domain is a
suffix of the query name; in particular an NS record for "com" is kept
for "example.com" and for "com" but not for "comx". -/
theorem get_ns_keeps_suffix_matches :
    (∀ (p : DnsPacket) (q : GoStr) (r : NSRecordData),
      r ∈ p.getNs q ↔ DnsRecord.NS r.Domain r.Host r.TTL ∈ p.Authorities ∧ r.Domain <:+ q) ∧
    comNsReply.getNs (strBytes "example.com") = [⟨strBytes "com", strBytes "ns.com", 0⟩] ∧
    comNsReply.getNs (strBytes "com") = [⟨strBytes "com", strBytes "ns.com", 0⟩] ∧
    comNsReply.getNs (strBytes "comx") = [] :=
  ⟨fun p q r => getNsAux_mem q p.Authorities r, by decide, by decide, by decide⟩

/-- The Go suffix test and the boolean list-suffix test agree. -/
theorem goHasSuffix_eq_isSuffixOf (q d : GoStr) :
    goHasSuffix q d = d.isSuffixOf q := by
  by_cases hs : d <:+ q
  · rw [(goHasSuffix_iff q d).mpr hs, List.isSuffixOf_iff_suffix.mpr hs]
  · have h1 : goHasSuffix q d = false := by
      rw [Bool.eq_false_iff]
      exact fun hc => hs ((goHasSuffix_iff q d).mp hc)
    have h2 : d.isSuffixOf q = false := by
      rw [Bool.eq_false_iff]
      exact fun hc => hs (List.isSuffixOf_iff_suffix.mp hc)
    rw [h1, h2]

/-- The hosts of the scanned nameservers, against the spec-side
suffix-filter over the authority section. -/
theorem getNsAux_hosts (q : GoStr) (rs : List DnsRecord) :
    (getNsAux q rs).map NSRecordData.Host = nsHostsMatching q rs := by
  induction rs with
  | nil => rfl
  | cons a rest ih =>
    cases a with
    | NS d h t =>
      rw [getNsAux, nsHostsMatching, goHasSuffix_eq_isSuffixOf]
      by_cases hc : List.isSuffixOf d q = true
      · rw [if_pos hc, if_pos hc, List.map_cons, ih]
      · rw [if_neg hc, if_neg hc, ih]
    | Unknown d qt dl t => simp [getNsAux, nsHostsMatching, ih]
    | A d addr t => simp [getNsAux, nsHostsMatching, ih]
    | CNAME d h t => simp [getNsAux, nsHostsMatching, ih]
    | MX d pr h t => simp [getNsAux, nsHostsMatching, ih]
    | AAAA d addr t => simp [getNsAux, nsHostsMatching, ih]

/-- C6, amended: `GetUnresolvedNS` returns the host of the first
suffix-matching authority NS record — with no regard to the additional
section — and the empty string when none matches. -/
theorem get_unresolved_ns_first_host (p : DnsPacket) (q : GoStr) :
    p.GetUnresolvedNS q = (nsHostsMatching q p.Authorities).headD [] := by
  rw [← getNsAux_hosts]
  unfold DnsPacket.GetUnresolvedNS DnsPacket.getNs
  cases getNsAux q p.Authorities with
  | nil => rfl
  | cons a l => rfl

/-! Shape lemmas for the buffer operations. -/

theorem read_ok (bpb : BytePacketBuffer) (h : bpb.pos < 512) :
    bpb.read = (.ok (bpb.buf bpb.pos), { bpb with pos := bpb.pos + 1 }) := by
  rw [BytePacketBuffer.read, if_neg (by omega : ¬ bpb.pos ≥ 512)]

theorem read_err (bpb : BytePacketBuffer) (h : 512 ≤ bpb.pos) :
    bpb.read = (.err .endOfBuffer, bpb) := by
  rw [BytePacketBuffer.read, if_pos (by omega : bpb.pos ≥ 512)]

theorem write_ok (bpb : BytePacketBuffer) (v : Nat) (h : bpb.pos < 512) :
    bpb.write v =
      (.ok (), ⟨fun i => if i = bpb.pos then v % 256 else bpb.buf i, bpb.pos + 1⟩) := by
  rw [BytePacketBuffer.write, if_neg (by omega : ¬ bpb.pos ≥ 512)]

theorem write_err (bpb : BytePacketBuffer) (v : Nat) (h : 512 ≤ bpb.pos) :
    bpb.write v = (.err .endOfBuffer, bpb) := by
  rw [BytePacketBuffer.write, if_pos (by omega : bpb.pos ≥ 512)]

theorem readU16_ok (bpb : BytePacketBuffer) (h : bpb.pos + 2 ≤ 512) :
    bpb.readU16 = (.ok ((bpb.buf bpb.pos <<< 8) ||| bpb.buf (bpb.pos + 1)),
      { bpb with pos := bpb.pos + 2 }) := by
  have h1 : ¬ bpb.pos ≥ 512 := by omega
  have h2 : ¬ bpb.pos + 1 ≥ 512 := by omega
  simp [BytePacketBuffer.readU16, BytePacketBuffer.read, h1, h2]

theorem readU16_err (bpb : BytePacketBuffer) (h : 512 < bpb.pos + 2) :
    (bpb.readU16).1 = .err .endOfBuffer := by
  by_cases h1 : bpb.pos ≥ 512
  · simp [BytePacketBuffer.readU16, BytePacketBuffer.read, h1]
  · have h2 : bpb.pos + 1 ≥ 512 := by omega
    simp [BytePacketBuffer.readU16, BytePacketBuffer.read, h1, h2]

theorem readU32_ok (bpb : BytePacketBuffer) (h : bpb.pos + 4 ≤ 512) :
    bpb.readU32 = (.ok ((bpb.buf bpb.pos <<< 24) ||| (bpb.buf (bpb.pos + 1) <<< 16) |||
      (bpb.buf (bpb.pos + 1 + 1) <<< 8) ||| bpb.buf (bpb.pos + 1 + 1 + 1)),
      { bpb with pos := bpb.pos + 4 }) := by
  have h1 : ¬ bpb.pos ≥ 512 := by omega
  have h2 : ¬ bpb.pos + 1 ≥ 512 := by omega
  have h3 : ¬ bpb.pos + 1 + 1 ≥ 512 := by omega
  have h4 : ¬ bpb.pos + 1 + 1 + 1 ≥ 512 := by omega
  simp [BytePacketBuffer.readU32, BytePacketBuffer.read, h1, h2, h3, h4]

theorem readU32_err (bpb : BytePacketBuffer) (h : 512 < bpb.pos + 4) :
    (bpb.readU32).1 = .err .endOfBuffer := by
  by_cases h1 : bpb.pos ≥ 512
  · simp [BytePacketBuffer.readU32, BytePacketBuffer.read, h1]
  · by_cases h2 : bpb.pos + 1 ≥ 512
    · simp [BytePacketBuffer.readU32, BytePacketBuffer.read, h1, h2]
    · by_cases h3 : bpb.pos + 1 + 1 ≥ 512
      · simp [BytePacketBuffer.readU32, BytePacketBuffer.read, h1, h2, h3]
      · have h4 : bpb.pos + 1 + 1 + 1 ≥ 512 := by omega
        simp [BytePacketBuffer.readU32, BytePacketBuffer.read, h1, h2, h3, h4]

theorem writeU16_ok (bpb : BytePacketBuffer) (v : Nat) (h : bpb.pos + 2 ≤ 512) :
    (bpb.writeU16 v).1 = .ok () ∧ (bpb.writeU16 v).2.pos = bpb.pos + 2 := by
  have h1 : ¬ bpb.pos ≥ 512 := by omega
  have h2 : ¬ bpb.pos + 1 ≥ 512 := by omega
  simp [BytePacketBuffer.writeU16, BytePacketBuffer.write, h1, h2]

theorem writeU16_err (bpb : BytePacketBuffer) (v : Nat) (h : 512 < bpb.pos + 2) :
    (bpb.writeU16 v).1 = .err .endOfBuffer := by
  by_cases h1 : bpb.pos ≥ 512
  · simp [BytePacketBuffer.writeU16, BytePacketBuffer.write, h1]
  · have h2 : bpb.pos + 1 ≥ 512 := by omega
    simp [BytePacketBuffer.writeU16, BytePacketBuffer.write, h1, h2]

theorem writeU32_ok (bpb : BytePacketBuffer) (v : Nat) (h : bpb.pos + 4 ≤ 512) :
    (bpb.writeU32 v).1 = .ok () ∧ (bpb.writeU32 v).2.pos = bpb.pos + 4 := by
  have h1 : ¬ bpb.pos ≥ 512 := by omega
  have h2 : ¬ bpb.pos + 1 ≥ 512 := by omega
  have h3 : ¬ bpb.pos + 1 + 1 ≥ 512 := by omega
  have h4 : ¬ bpb.pos + 1 + 1 + 1 ≥ 512 := by omega
  simp [BytePacketBuffer.writeU32, BytePacketBuffer.write, h1, h2, h3, h4]

theorem writeU32_err (bpb : BytePacketBuffer) (v : Nat) (h : 512 < bpb.pos + 4) :
    (bpb.writeU32 v).1 = .err .endOfBuffer := by
  by_cases h1 : bpb.pos ≥ 512
  · simp [BytePacketBuffer.writeU32, BytePacketBuffer.write, h1]
  · by_cases h2 : bpb.pos + 1 ≥ 512
    · simp [BytePacketBuffer.writeU32, BytePacketBuffer.write, h1, h2]
    · by_cases h3 : bpb.pos + 1 + 1 ≥ 512
      · simp [BytePacketBuffer.writeU32, BytePacketBuffer.write, h1, h2, h3]
      · have h4 : bpb.pos + 1 + 1 + 1 ≥ 512 := by omega
        simp [BytePacketBuffer.writeU32, BytePacketBuffer.write, h1, h2, h3, h4]

theorem set_ok (bpb : BytePacketBuffer) (p v : Nat) (h : p < 512) :
    bpb.set p v = (.ok (), { bpb with buf := fun i => if i = p then v % 256 else bpb.buf i }) := by
  rw [BytePacketBuffer.set, if_neg (by omega : ¬ p ≥ 512)]

theorem set_panic (bpb : BytePacketBuffer) (p v : Nat) (h : 512 ≤ p) :
    bpb.set p v = (.panicked, bpb) := by
  rw [BytePacketBuffer.set, if_pos (by omega : p ≥ 512)]

theorem setU16_ok (bpb : BytePacketBuffer) (p v : Nat) (h : p + 2 ≤ 512) :
    (bpb.setU16 p v).1 = .ok () ∧ (bpb.setU16 p v).2.pos = bpb.pos ∧
    (bpb.setU16 p v).2.buf p = ((v % 65536) >>> 8) % 256 ∧
    (bpb.setU16 p v).2.buf (p + 1) = ((v % 65536) &&& 0xFF) % 256 := by
  have h1 : ¬ p ≥ 512 := by omega
  have h2 : ¬ p + 1 ≥ 512 := by omega
  have h3 : ¬ p = p + 1 := by omega
  simp [BytePacketBuffer.setU16, BytePacketBuffer.set, h1, h2, h3]

theorem setU16_panic (bpb : BytePacketBuffer) (p v : Nat) (h : 512 < p + 2) :
    (bpb.setU16 p v).1 = .panicked := by
  by_cases h1 : p ≥ 512
  · simp [BytePacketBuffer.setU16, BytePacketBuffer.set, h1]
  · have h2 : p + 1 ≥ 512 := by omega
    simp [BytePacketBuffer.setU16, BytePacketBuffer.set, h1, h2]

/-- C3, amended: the sequential reads and writes (one, two and four
bytes) and the random-access `get` and `GetRange` fail with the
end-of-buffer error exactly when their required byte range extends beyond
the 512-byte capacity (`GetRange` also rejects a range ending exactly at
the capacity, see C10); the patch operations `set` and `setU16` perform
no bounds check: in range they succeed, out of range they are unchecked
out-of-range stores — runtime panics, not returned errors. -/
theorem buffer_ops_bounds_behavior :
    (∀ bpb : BytePacketBuffer,
      isOk bpb.read.1 = decide (bpb.pos + 1 ≤ 512) ∧
      (512 < bpb.pos + 1 → bpb.read.1 = .err .endOfBuffer)) ∧
    (∀ bpb : BytePacketBuffer,
      isOk bpb.readU16.1 = decide (bpb.pos + 2 ≤ 512) ∧
      (512 < bpb.pos + 2 → bpb.readU16.1 = .err .endOfBuffer)) ∧
    (∀ bpb : BytePacketBuffer,
      isOk bpb.readU32.1 = decide (bpb.pos + 4 ≤ 512) ∧
      (512 < bpb.pos + 4 → bpb.readU32.1 = .err .endOfBuffer)) ∧
    (∀ (bpb : BytePacketBuffer) (v : Nat),
      isOk (bpb.write v).1 = decide (bpb.pos + 1 ≤ 512) ∧
      (512 < bpb.pos + 1 → (bpb.write v).1 = .err .endOfBuffer)) ∧
    (∀ (bpb : BytePacketBuffer) (v : Nat),
      isOk (bpb.writeU16 v).1 = decide (bpb.pos + 2 ≤ 512) ∧
      (512 < bpb.pos + 2 → (bpb.writeU16 v).1 = .err .endOfBuffer)) ∧
    (∀ (bpb : BytePacketBuffer) (v : Nat),
      isOk (bpb.writeU32 v).1 = decide (bpb.pos + 4 ≤ 512) ∧
      (512 < bpb.pos + 4 → (bpb.writeU32 v).1 = .err .endOfBuffer)) ∧
    (∀ (bpb : BytePacketBuffer) (p : Nat),
      isOk (bpb.get p) = decide (p + 1 ≤ 512) ∧
      (512 < p + 1 → bpb.get p = .err .endOfBuffer)) ∧
    (∀ (bpb : BytePacketBuffer) (start length : Nat),
      isOk (bpb.GetRange start length) = decide (start + length < 512) ∧
      (512 ≤ start + length → bpb.GetRange start length = .err .endOfBuffer)) ∧
    (∀ (bpb : BytePacketBuffer) (p v : Nat),
      isOk (bpb.set p v).1 = decide (p < 512) ∧
      (512 ≤ p → (bpb.set p v).1 = .panicked)) ∧
    (∀ (bpb : BytePacketBuffer) (p v : Nat),
      isOk (bpb.setU16 p v).1 = decide (p + 2 ≤ 512) ∧
      (512 < p + 2 → (bpb.setU16 p v).1 = .panicked)) := by
  refine ⟨?_, ?_, ?_, ?_, ?_, ?_, ?_, ?_, ?_, ?_⟩
  · intro bpb
    refine ⟨?_, fun h => by rw [read_err bpb (by omega)]⟩
    by_cases h : bpb.pos + 1 ≤ 512
    · rw [read_ok bpb (by omega)]
      simp [isOk, h]
    · rw [read_err bpb (by omega)]
      simp [isOk, h]
  · intro bpb
    refine ⟨?_, fun h => readU16_err bpb h⟩
    by_cases h : bpb.pos + 2 ≤ 512
    · rw [readU16_ok bpb h]
      simp [isOk, h]
    · rw [readU16_err bpb (by omega)]
      simp [isOk, h]
  · intro bpb
    refine ⟨?_, fun h => readU32_err bpb h⟩
    by_cases h : bpb.pos + 4 ≤ 512
    · rw [readU32_ok bpb h]
      simp [isOk, h]
    · rw [readU32_err bpb (by omega)]
      simp [isOk, h]
  · intro bpb v
    refine ⟨?_, fun h => by rw [write_err bpb v (by omega)]⟩
    by_cases h : bpb.pos + 1 ≤ 512
    · rw [write_ok bpb v (by omega)]
      simp [isOk, h]
    · rw [write_err bpb v (by omega)]
      simp [isOk, h]
  · intro bpb v
    refine ⟨?_, fun h => writeU16_err bpb v h⟩
    by_cases h : bpb.pos + 2 ≤ 512
    · rw [(writeU16_ok bpb v h).1]
      simp [isOk, h]
    · rw [writeU16_err bpb v (by omega)]
      simp [isOk, h]
  · intro bpb v
    refine ⟨?_, fun h => writeU32_err bpb v h⟩
    by_cases h : bpb.pos + 4 ≤ 512
    · rw [(writeU32_ok bpb v h).1]
      simp [isOk, h]
    · rw [writeU32_err bpb v (by omega)]
      simp [isOk, h]
  · intro bpb p
    refine ⟨?_, fun h => by rw [BytePacketBuffer.get, if_pos (by omega : p ≥ 512)]⟩
    by_cases h : p + 1 ≤ 512
    · rw [BytePacketBuffer.get, if_neg (by omega : ¬ p ≥ 512)]
      simp [isOk, h]
    · rw [BytePacketBuffer.get, if_pos (by omega : p ≥ 512)]
      simp [isOk, h]
  · intro bpb s l
    refine ⟨?_, fun h => by rw [BytePacketBuffer.GetRange, if_pos (by omega : s + l ≥ 512)]⟩
    by_cases h : s + l < 512
    · rw [BytePacketBuffer.GetRange, if_neg (by omega : ¬ s + l ≥ 512)]
      simp [isOk, h]
    · rw [BytePacketBuffer.GetRange, if_pos (by omega : s + l ≥ 512)]
      simp [isOk, h]
  · intro bpb p v
    refine ⟨?_, fun h => by rw [set_panic bpb p v h]⟩
    by_cases h : p < 512
    · rw [set_ok bpb p v h]
      simp [isOk, h]
    · rw [set_panic bpb p v (by omega)]
      simp [isOk, h]
  · intro bpb p v
    refine ⟨?_, fun h => setU16_panic bpb p v h⟩
    by_cases h : p + 2 ≤ 512
    · rw [(setU16_ok bpb p v h).1]
      simp [isOk, h]
    · rw [setU16_panic bpb p v (by omega)]
      simp [isOk, h]

/-- C5, amended: encoding an Unknown record is a silent no-op success —
zero bytes, nil error, buffer untouched — while decoding a record whose
type code maps to no supported type is not fatal: after the shared
preamble it skips the declared data length and yields the Unknown
variant. -/
theorem unknown_record_encode_noop_decode_fallback :
    (∀ (d : GoStr) (q dl t : Nat) (bpb : BytePacketBuffer),
      WriteDnsRecord (.Unknown d q dl t) bpb = (.ok 0, bpb)) ∧
    (∀ (bpb s1 s2 s3 s4 s5 : BytePacketBuffer) (domain : GoStr) (qn cls ttl dl : Nat),
      bpb.readQname [] = (.ok domain, s1) →
      s1.readU16 = (.ok qn, s2) →
      s2.readU16 = (.ok cls, s3) →
      s3.readU32 = (.ok ttl, s4) →
      s4.readU16 = (.ok dl, s5) →
      QueryTypeFromNum qn = .UNKNOWN →
      ReadDnsRecord bpb = (.ok (.Unknown domain qn dl ttl), { s5 with pos := s5.pos + dl })) := by
  constructor
  · intro d q dl t bpb
    simp [WriteDnsRecord]
  · intro bpb s1 s2 s3 s4 s5 domain qn cls ttl dl e1 e2 e3 e4 e5 hq
    rw [ReadDnsRecord, e1]
    simp only [mbind]
    rw [e2]
    simp only [mbind]
    rw [e3]
    simp only [mbind]
    rw [e4]
    simp only [mbind]
    rw [e5]
    simp only [mbind]
    rw [hq]
    simp [BytePacketBuffer.step, mbind]

/-! Sequencing lemmas and success shapes for the qname writer. -/

theorem mbind_ok {α β : Type} (r : GoResult α × BytePacketBuffer)
    (f : α → BytePacketBuffer → GoResult β × BytePacketBuffer) (a : α)
    (h : r.1 = .ok a) : mbind r f = f a r.2 := by
  obtain ⟨g, s⟩ := r
  cases g with
  | ok b =>
    injection h with hba
    subst hba
    rfl
  | err e => exact absurd h (by simp)
  | panicked => exact absurd h (by simp)

theorem mdrop_ok {α β : Type} (r : GoResult α × BytePacketBuffer)
    (f : BytePacketBuffer → GoResult β × BytePacketBuffer) (a : α)
    (h : r.1 = .ok a) : mdrop r f = f r.2 := by
  obtain ⟨g, s⟩ := r
  cases g with
  | ok b => rfl
  | err e => rfl
  | panicked => exact absurd h (by simp)

theorem labelsWireLen_cons (l : List Nat) (rest : List (List Nat)) :
    labelsWireLen (l :: rest) = 1 + l.length + labelsWireLen rest := by
  simp [labelsWireLen, List.map_cons, List.sum_cons]
  omega

theorem writeBytes_ok : ∀ (l : List Nat) (bpb : BytePacketBuffer),
    bpb.pos + l.length ≤ 512 →
    (bpb.writeBytes l).1 = .ok () ∧ (bpb.writeBytes l).2.pos = bpb.pos + l.length := by
  intro l
  induction l with
  | nil =>
    intro bpb h
    exact ⟨rfl, rfl⟩
  | cons b rest ih =>
    intro bpb h
    have hlen : bpb.pos + (rest.length + 1) ≤ 512 := h
    rw [BytePacketBuffer.writeBytes, BytePacketBuffer.writeU8,
      write_ok bpb b (by omega)]
    dsimp only
    have hr := ih ⟨fun i => if i = bpb.pos then b % 256 else bpb.buf i, bpb.pos + 1⟩
      (by show bpb.pos + 1 + rest.length ≤ 512; omega)
    refine ⟨hr.1, ?_⟩
    rw [hr.2]
    show bpb.pos + 1 + rest.length = bpb.pos + (rest.length + 1)
    omega

theorem writeLabels_ok : ∀ (ls : List (List Nat)) (bpb : BytePacketBuffer),
    (∀ l ∈ ls, l.length ≤ 63) →
    bpb.pos + labelsWireLen ls ≤ 512 →
    (bpb.writeLabels ls).1 = .ok () ∧
    (bpb.writeLabels ls).2.pos = bpb.pos + labelsWireLen ls := by
  intro ls
  induction ls with
  | nil =>
    intro bpb hl h
    have hb : bpb.pos + 1 ≤ 512 := h
    rw [BytePacketBuffer.writeLabels, BytePacketBuffer.writeU8,
      write_ok bpb 0 (by omega)]
    exact ⟨rfl, rfl⟩
  | cons l rest ih =>
    intro bpb hl h
    have hlc : labelsWireLen (l :: rest) = 1 + l.length + labelsWireLen rest :=
      labelsWireLen_cons l rest
    have hwl : labelsWireLen rest ≥ 1 := by simp [labelsWireLen]
    rw [BytePacketBuffer.writeLabels,
      if_neg (by have := hl l (List.mem_cons_self l rest); omega : ¬ l.length > 0x3f),
      BytePacketBuffer.writeU8, write_ok bpb l.length (by omega)]
    dsimp only
    have hwb := writeBytes_ok l ⟨fun i => if i = bpb.pos then l.length % 256 else bpb.buf i,
      bpb.pos + 1⟩ (by show bpb.pos + 1 + l.length ≤ 512; omega)
    rcases hsp : (BytePacketBuffer.writeBytes
        ⟨fun i => if i = bpb.pos then l.length % 256 else bpb.buf i, bpb.pos + 1⟩ l) with ⟨g2, s2⟩
    rw [hsp] at hwb
    obtain ⟨hg2, hp2⟩ := hwb
    dsimp only at hg2 hp2
    subst hg2
    dsimp only
    have hrest := ih s2 (fun x hx => hl x (List.mem_cons_of_mem l hx))
      (by rw [hp2]; show bpb.pos + 1 + l.length + labelsWireLen rest ≤ 512; omega)
    refine ⟨hrest.1, ?_⟩
    rw [hrest.2, hp2, hlc]
    show bpb.pos + 1 + l.length + labelsWireLen rest = bpb.pos + (1 + l.length + labelsWireLen rest)
    omega

theorem writeQname_ok (bpb : BytePacketBuffer) (q : GoStr)
    (hl : ∀ l ∈ splitDot q, l.length ≤ 63)
    (h : bpb.pos + qnameWireLen q ≤ 512) :
    (bpb.writeQname q).1 = .ok () ∧ (bpb.writeQname q).2.pos = bpb.pos + qnameWireLen q :=
  writeLabels_ok (splitDot q) bpb hl h

/-- Reading back a 16-bit value patched in by `setU16`. -/
theorem bufU16_after_setU16 (bpb : BytePacketBuffer) (p v : Nat)
    (h : p + 2 ≤ 512) (hv : v < 65536) :
    bufU16 (bpb.setU16 p v).2 p = v := by
  obtain ⟨-, -, h3, h4⟩ := setU16_ok bpb p v h
  rw [bufU16, h3, h4]
  rw [Nat.shiftRight_eq_div_pow]
  have h5 : (v % 65536) &&& 255 = v % 256 := by
    have h6 := Nat.and_pow_two_sub_one_eq_mod (v % 65536) 8
    norm_num at h6
    exact h6
  rw [h5]
  have h7 : (2 : Nat) ^ 8 = 256 := by norm_num
  rw [h7]
  omega

/-- NS encoding: the patched length field holds exactly the byte count of
the host qname written after it. -/
theorem ns_patch_ok (domain host : GoStr) (ttl : Nat) (bpb : BytePacketBuffer)
    (hld : ∀ l ∈ splitDot domain, l.length ≤ 63)
    (hlh : ∀ l ∈ splitDot host, l.length ≤ 63)
    (hfit : bpb.pos + qnameWireLen domain + 10 + qnameWireLen host ≤ 512) :
    (WriteDnsRecord (.NS domain host ttl) bpb).1 =
      .ok (qnameWireLen domain + 10 + qnameWireLen host) ∧
    bufU16 (WriteDnsRecord (.NS domain host ttl) bpb).2
      (bpb.pos + qnameWireLen domain + 8) = qnameWireLen host ∧
    (WriteDnsRecord (.NS domain host ttl) bpb).2.pos =
      bpb.pos + qnameWireLen domain + 10 + qnameWireLen host := by
  have hq2 : qnameWireLen host ≥ 1 := by simp [qnameWireLen, labelsWireLen]
  have w1 := writeQname_ok bpb domain hld (by omega)
  simp only [WriteDnsRecord, mdrop_ok _ _ _ w1.1]
  have w2 := writeU16_ok (bpb.writeQname domain).2 QueryType.NS.ToNum
    (by rw [w1.2]; omega)
  simp only [mdrop_ok _ _ _ w2.1]
  have w3 := writeU16_ok ((bpb.writeQname domain).2.writeU16 QueryType.NS.ToNum).2 1
    (by rw [w2.2, w1.2]; omega)
  simp only [mdrop_ok _ _ _ w3.1]
  have w4 := writeU32_ok
    (((bpb.writeQname domain).2.writeU16 QueryType.NS.ToNum).2.writeU16 1).2 ttl
    (by rw [w3.2, w2.2, w1.2]; omega)
  simp only [mdrop_ok _ _ _ w4.1]
  set S4 := ((((bpb.writeQname domain).2.writeU16 QueryType.NS.ToNum).2.writeU16 1).2.writeU32
    ttl).2 with hS4
  have hp4 : S4.pos = bpb.pos + qnameWireLen domain + 8 := by
    rw [hS4, w4.2, w3.2, w2.2, w1.2]
  have w5 := writeU16_ok S4 0 (by rw [hp4]; omega)
  simp only [mdrop_ok _ _ _ w5.1]
  set S5 := (S4.writeU16 0).2 with hS5
  have hp5 : S5.pos = bpb.pos + qnameWireLen domain + 10 := by
    rw [hS5, w5.2, hp4]
  have w6 := writeQname_ok S5 host hlh (by rw [hp5]; omega)
  simp only [mdrop_ok _ _ _ w6.1]
  set S6 := (S5.writeQname host).2 with hS6
  have hp6 : S6.pos = bpb.pos + qnameWireLen domain + 10 + qnameWireLen host := by
    rw [hS6, w6.2, hp5]
  have hv : ((((S6.pos : Int) - ((S4.pos : Int) + 2)) % 65536).toNat) =
      qnameWireLen host := by
    rw [hp6, hp4]
    omega
  have w7 := setU16_ok S6 S4.pos ((((S6.pos : Int) - ((S4.pos : Int) + 2)) % 65536).toNat)
    (by rw [hp4]; omega)
  simp only [mdrop_ok _ _ _ w7.1]
  refine ⟨?_, ?_, ?_⟩
  · have hp7 : (S6.setU16 S4.pos
        ((((S6.pos : Int) - ((S4.pos : Int) + 2)) % 65536).toNat)).2.pos = S6.pos := w7.2.1
    rw [hp7]
    have h8 : S6.pos - bpb.pos = qnameWireLen domain + 10 + qnameWireLen host := by
      rw [hp6]; omega
    rw [h8]
  · have hb := bufU16_after_setU16 S6 S4.pos
      ((((S6.pos : Int) - ((S4.pos : Int) + 2)) % 65536).toNat)
      (by rw [hp4]; omega) (by rw [hv]; omega)
    rw [← hp4, hb, hv]
  · have hp7 : (S6.setU16 S4.pos
        ((((S6.pos : Int) - ((S4.pos : Int) + 2)) % 65536).toNat)).2.pos = S6.pos := w7.2.1
    rw [hp7, hp6]

/-- CNAME encoding: same length-patching discipline as NS (this arm
checks each write's error). -/
theorem cname_patch_ok (domain host : GoStr) (ttl : Nat) (bpb : BytePacketBuffer)
    (hld : ∀ l ∈ splitDot domain, l.length ≤ 63)
    (hlh : ∀ l ∈ splitDot host, l.length ≤ 63)
    (hfit : bpb.pos + qnameWireLen domain + 10 + qnameWireLen host ≤ 512) :
    (WriteDnsRecord (.CNAME domain host ttl) bpb).1 =
      .ok (qnameWireLen domain + 10 + qnameWireLen host) ∧
    bufU16 (WriteDnsRecord (.CNAME domain host ttl) bpb).2
      (bpb.pos + qnameWireLen domain + 8) = qnameWireLen host ∧
    (WriteDnsRecord (.CNAME domain host ttl) bpb).2.pos =
      bpb.pos + qnameWireLen domain + 10 + qnameWireLen host := by
  have hq2 : qnameWireLen host ≥ 1 := by simp [qnameWireLen, labelsWireLen]
  have w1 := writeQname_ok bpb domain hld (by omega)
  simp only [WriteDnsRecord, mbind_ok _ _ _ w1.1]
  have w2 := writeU16_ok (bpb.writeQname domain).2 QueryType.CNAME.ToNum
    (by rw [w1.2]; omega)
  simp only [mbind_ok _ _ _ w2.1]
  have w3 := writeU16_ok ((bpb.writeQname domain).2.writeU16 QueryType.CNAME.ToNum).2 1
    (by rw [w2.2, w1.2]; omega)
  simp only [mbind_ok _ _ _ w3.1]
  have w4 := writeU32_ok
    (((bpb.writeQname domain).2.writeU16 QueryType.CNAME.ToNum).2.writeU16 1).2 ttl
    (by rw [w3.2, w2.2, w1.2]; omega)
  simp only [mbind_ok _ _ _ w4.1]
  set S4 := ((((bpb.writeQname domain).2.writeU16 QueryType.CNAME.ToNum).2.writeU16
    1).2.writeU32 ttl).2 with hS4
  have hp4 : S4.pos = bpb.pos + qnameWireLen domain + 8 := by
    rw [hS4, w4.2, w3.2, w2.2, w1.2]
  have w5 := writeU16_ok S4 0 (by rw [hp4]; omega)
  simp only [mbind_ok _ _ _ w5.1]
  set S5 := (S4.writeU16 0).2 with hS5
  have hp5 : S5.pos = bpb.pos + qnameWireLen domain + 10 := by
    rw [hS5, w5.2, hp4]
  have w6 := writeQname_ok S5 host hlh (by rw [hp5]; omega)
  simp only [mbind_ok _ _ _ w6.1]
  set S6 := (S5.writeQname host).2 with hS6
  have hp6 : S6.pos = bpb.pos + qnameWireLen domain + 10 + qnameWireLen host := by
    rw [hS6, w6.2, hp5]
  have hv : ((((S6.pos : Int) - ((S4.pos : Int) + 2)) % 65536).toNat) =
      qnameWireLen host := by
    rw [hp6, hp4]
    omega
  have w7 := setU16_ok S6 S4.pos ((((S6.pos : Int) - ((S4.pos : Int) + 2)) % 65536).toNat)
    (by rw [hp4]; omega)
  simp only [mbind_ok _ _ _ w7.1]
  refine ⟨?_, ?_, ?_⟩
  · have hp7 : (S6.setU16 S4.pos
        ((((S6.pos : Int) - ((S4.pos : Int) + 2)) % 65536).toNat)).2.pos = S6.pos := w7.2.1
    rw [hp7]
    have h8 : S6.pos - bpb.pos = qnameWireLen domain + 10 + qnameWireLen host := by
      rw [hp6]; omega
    rw [h8]
  · have hb := bufU16_after_setU16 S6 S4.pos
      ((((S6.pos : Int) - ((S4.pos : Int) + 2)) % 65536).toNat)
      (by rw [hp4]; omega) (by rw [hv]; omega)
    rw [← hp4, hb, hv]
  · have hp7 : (S6.setU16 S4.pos
        ((((S6.pos : Int) - ((S4.pos : Int) + 2)) % 65536).toNat)).2.pos = S6.pos := w7.2.1
    rw [hp7, hp6]

/-- MX encoding: the patched length field holds the priority's two bytes
plus the host qname's byte count. -/
theorem mx_patch_ok (domain host : GoStr) (priority ttl : Nat) (bpb : BytePacketBuffer)
    (hld : ∀ l ∈ splitDot domain, l.length ≤ 63)
    (hlh : ∀ l ∈ splitDot host, l.length ≤ 63)
    (hfit : bpb.pos + qnameWireLen domain + 12 + qnameWireLen host ≤ 512) :
    (WriteDnsRecord (.MX domain priority host ttl) bpb).1 =
      .ok (qnameWireLen domain + 12 + qnameWireLen host) ∧
    bufU16 (WriteDnsRecord (.MX domain priority host ttl) bpb).2
      (bpb.pos + qnameWireLen domain + 8) = 2 + qnameWireLen host ∧
    (WriteDnsRecord (.MX domain priority host ttl) bpb).2.pos =
      bpb.pos + qnameWireLen domain + 12 + qnameWireLen host := by
  have hq2 : qnameWireLen host ≥ 1 := by simp [qnameWireLen, labelsWireLen]
  have w1 := writeQname_ok bpb domain hld (by omega)
  simp only [WriteDnsRecord, mdrop_ok _ _ _ w1.1]
  have w2 := writeU16_ok (bpb.writeQname domain).2 QueryType.MX.ToNum
    (by rw [w1.2]; omega)
  simp only [mdrop_ok _ _ _ w2.1]
  have w3 := writeU16_ok ((bpb.writeQname domain).2.writeU16 QueryType.MX.ToNum).2 1
    (by rw [w2.2, w1.2]; omega)
  simp only [mdrop_ok _ _ _ w3.1]
  have w4 := writeU32_ok
    (((bpb.writeQname domain).2.writeU16 QueryType.MX.ToNum).2.writeU16 1).2 ttl
    (by rw [w3.2, w2.2, w1.2]; omega)
  simp only [mdrop_ok _ _ _ w4.1]
  set S4 := ((((bpb.writeQname domain).2.writeU16 QueryType.MX.ToNum).2.writeU16 1).2.writeU32
    ttl).2 with hS4
  have hp4 : S4.pos = bpb.pos + qnameWireLen domain + 8 := by
    rw [hS4, w4.2, w3.2, w2.2, w1.2]
  have w5 := writeU16_ok S4 0 (by rw [hp4]; omega)
  simp only [mdrop_ok _ _ _ w5.1]
  set S5 := (S4.writeU16 0).2 with hS5
  have hp5 : S5.pos = bpb.pos + qnameWireLen domain + 10 := by
    rw [hS5, w5.2, hp4]
  have w6 := writeU16_ok S5 priority (by rw [hp5]; omega)
  simp only [mdrop_ok _ _ _ w6.1]
  set S6 := (S5.writeU16 priority).2 with hS6
  have hp6 : S6.pos = bpb.pos + qnameWireLen domain + 12 := by
    rw [hS6, w6.2, hp5]
  have w7 := writeQname_ok S6 host hlh (by rw [hp6]; omega)
  simp only [mdrop_ok _ _ _ w7.1]
  set S7 := (S6.writeQname host).2 with hS7
  have hp7 : S7.pos = bpb.pos + qnameWireLen domain + 12 + qnameWireLen host := by
    rw [hS7, w7.2, hp6]
  have hv : ((((S7.pos : Int) - ((S4.pos : Int) + 2)) % 65536).toNat) =
      2 + qnameWireLen host := by
    rw [hp7, hp4]
    omega
  have w8 := setU16_ok S7 S4.pos ((((S7.pos : Int) - ((S4.pos : Int) + 2)) % 65536).toNat)
    (by rw [hp4]; omega)
  simp only [mdrop_ok _ _ _ w8.1]
  refine ⟨?_, ?_, ?_⟩
  · have hp8 : (S7.setU16 S4.pos
        ((((S7.pos : Int) - ((S4.pos : Int) + 2)) % 65536).toNat)).2.pos = S7.pos := w8.2.1
    rw [hp8]
    have h9 : S7.pos - bpb.pos = qnameWireLen domain + 12 + qnameWireLen host := by
      rw [hp7]; omega
    rw [h9]
  · have hb := bufU16_after_setU16 S7 S4.pos
      ((((S7.pos : Int) - ((S4.pos : Int) + 2)) % 65536).toNat)
      (by rw [hp4]; omega) (by rw [hv]; omega)
    rw [← hp4, hb, hv]
  · have hp8 : (S7.setU16 S4.pos
        ((((S7.pos : Int) - ((S4.pos : Int) + 2)) % 65536).toNat)).2.pos = S7.pos := w8.2.1
    rw [hp8, hp7]

/-- C8: for NS, CNAME and MX records whose labels are legal and whose
encoding fits the buffer, the 16-bit length field patched over the zero
placeholder equals the exact number of payload bytes written after it
(the host qname, preceded by the 2-byte priority for MX); in particular
an NS record with host "ns1.example.com" stores length 17. -/
theorem varlen_record_length_patched :
    (∀ (domain host : GoStr) (ttl : Nat) (bpb : BytePacketBuffer),
      (∀ l ∈ splitDot domain, l.length ≤ 63) →
      (∀ l ∈ splitDot host, l.length ≤ 63) →
      bpb.pos + qnameWireLen domain + 10 + qnameWireLen host ≤ 512 →
      (WriteDnsRecord (.NS domain host ttl) bpb).1 =
        .ok (qnameWireLen domain + 10 + qnameWireLen host) ∧
      bufU16 (WriteDnsRecord (.NS domain host ttl) bpb).2
        (bpb.pos + qnameWireLen domain + 8) = qnameWireLen host ∧
      (WriteDnsRecord (.NS domain host ttl) bpb).2.pos =
        bpb.pos + qnameWireLen domain + 10 + qnameWireLen host) ∧
    (∀ (domain host : GoStr) (ttl : Nat) (bpb : BytePacketBuffer),
      (∀ l ∈ splitDot domain, l.length ≤ 63) →
      (∀ l ∈ splitDot host, l.length ≤ 63) →
      bpb.pos + qnameWireLen domain + 10 + qnameWireLen host ≤ 512 →
      (WriteDnsRecord (.CNAME domain host ttl) bpb).1 =
        .ok (qnameWireLen domain + 10 + qnameWireLen host) ∧
      bufU16 (WriteDnsRecord (.CNAME domain host ttl) bpb).2
        (bpb.pos + qnameWireLen domain + 8) = qnameWireLen host ∧
      (WriteDnsRecord (.CNAME domain host ttl) bpb).2.pos =
        bpb.pos + qnameWireLen domain + 10 + qnameWireLen host) ∧
    (∀ (domain host : GoStr) (priority ttl : Nat) (bpb : BytePacketBuffer),
      (∀ l ∈ splitDot domain, l.length ≤ 63) →
      (∀ l ∈ splitDot host, l.length ≤ 63) →
      bpb.pos + qnameWireLen domain + 12 + qnameWireLen host ≤ 512 →
      (WriteDnsRecord (.MX domain priority host ttl) bpb).1 =
        .ok (qnameWireLen domain + 12 + qnameWireLen host) ∧
      bufU16 (WriteDnsRecord (.MX domain priority host ttl) bpb).2
        (bpb.pos + qnameWireLen domain + 8) = 2 + qnameWireLen host ∧
      (WriteDnsRecord (.MX domain priority host ttl) bpb).2.pos =
        bpb.pos + qnameWireLen domain + 12 + qnameWireLen host) ∧
    qnameWireLen (strBytes "ns1.example.com") = 17 ∧
    bufU16 (WriteDnsRecord nsSample NewBytePacketBuffer).2 11 = 17 :=
  ⟨ns_patch_ok, cname_patch_ok, mx_patch_ok, by decide, by decide⟩

end Godns
